import Mathlib

/-!
Verification development for the Medication-Reminder batch call scheduler.

The embedded code is the `schedule-batches` Supabase edge function
(`processScheduledMedications` and its helpers `findAnchorMedications`,
`sweepUserMedications`, `updateMedicationStats`, `sanitizePhoneNumber`,
`triggerMakeCall`) together with the `createSpokenList` helper of the
`make-call` edge function.

Modelling conventions:
- The `medications` table is a `List Medication`; queries are filters over it,
  followed by the query's sort (the source's order-by on `time`).
- Timestamps (`last_called_at`, `Date.getTime()`) are `Int` milliseconds.
  The source compares ISO-8601 UTC timestamp strings; for that fixed format
  lexicographic string order coincides with the order of the instants, so the
  integer comparison is the faithful meaning.
- `HH:MM` time-of-day values stay strings; Postgres text comparison and the
  JavaScript string comparison used by the source are both modelled by
  per-character code-point lexicographic order (`strLtB` / `strLeB`), which for
  the fixed-width digit/colon format agrees with any sane text collation.
- Fallible external effects (database queries and updates, auth-user lookup,
  the HTTP call) are driven by explicit oracle inputs, so that every error
  branch of the source is reachable in the model.
- `toLocaleTimeString` formatting of a timestamp into an `HH:MM` string is an
  environment (timezone database) lookup, so the three formatted strings the
  run computes are inputs of the model rather than computed values.
- `console.log` and the two log-only SELECT queries in `findAnchorMedications`
  (the cooldown listing and the retry-limit listing) have no effect on any
  result or state and are omitted.
- Per-user dispatches run via `Promise.allSettled`, whose result array is in
  input order; distinct users' batches touch disjoint medication rows, so the
  fold in batch order used here is the faithful determinization.
-/

namespace MedReminder

/-! ## Configuration constants (schedule-batches, lines 31-34) -/

def ANCHOR_WINDOW_MINUTES : Int := 1
def SWEEP_WINDOW_MINUTES : Int := 30
def SNOOZE_COOLDOWN_MINUTES : Int := 15
def MAX_RETRY_COUNT : Nat := 2

/-- Milliseconds per minute, as in the source's `* 60 * 1000`. -/
def minuteMs : Int := 60 * 1000

/-! ## Character-level lexicographic string comparison

Model of both Postgres text comparison (used by the `gte`/`lte`/`lt` filters
on the `time` column) and JavaScript string comparison (used for
`windowEndTime < nowTime`). -/

def charLtB (a b : Char) : Bool := a.val < b.val

def dataLtB : List Char → List Char → Bool
  | [], [] => false
  | [], _ :: _ => true
  | _ :: _, [] => false
  | a :: as, b :: bs =>
    if charLtB a b then true else if charLtB b a then false else dataLtB as bs

def strLtB (s t : String) : Bool := dataLtB s.data t.data

def strLeB (s t : String) : Bool := strLtB s t || s == t

/-- JavaScript `String.prototype.startsWith`, at character-list level. -/
def jsStartsWith (s p : String) : Bool := p.data.isPrefixOf s.data

/-! ## Data model (schedule-batches, lines 40-81) -/

structure Medication where
  id : String
  name : String
  dosage : String
  time : String
  user_id : String
  is_taken : Bool
  last_called_at : Option Int
  retry_count : Nat
  deriving Repr, DecidableEq

structure UserProfile where
  id : String
  phone : String
  name : String
  deriving Repr, DecidableEq

structure MedicationItem where
  id : String
  name : String
  logId : String
  deriving Repr, DecidableEq

inductive DispatchStatus where
  | triggered
  | skipped
  | error
  deriving Repr, DecidableEq

/-- One entry of `ScheduleResult.details`. -/
structure DispatchDetail where
  userId : String
  medicationCount : Nat
  status : DispatchStatus
  callSid : Option String
  error : Option String
  deriving Repr, DecidableEq

structure ScheduleResult where
  success : Bool
  batches_triggered : Nat
  total_meds : Nat
  errors : List String
  details : List DispatchDetail
  deriving Repr, DecidableEq

/-- Result of `supabase.auth.admin.getUserById` as the profile loop consumes
it: `none` models a lookup error / missing user; `phone` merges `user.phone`
and `user.user_metadata.phone`; `name` merges the metadata/email fallbacks. -/
structure AuthUser where
  phone : Option String
  name : String

/-- The `fetch` response consumed by `triggerMakeCall`: `ok`/`status` of the
HTTP response and the `error`/`callSid` fields of its JSON body. -/
structure HttpResponse where
  ok : Bool
  status : Nat
  dataError : Option String
  dataCallSid : Option String

structure CallResult where
  success : Bool
  callSid : Option String
  error : Option String
  deriving Repr, DecidableEq

/-- Failure oracle for the two anchor queries. -/
structure AnchorOracle where
  newMedsError : Bool
  retryMedsError : Bool

/-- Failure oracle for `updateMedicationStats`: whether the initial fetch
fails, and the ids whose individual UPDATE statement fails. -/
structure StatOracle where
  fetchError : Bool
  updateFailures : List String

/-- Inputs of one `processScheduledMedications` run: environment credentials,
the clock, the three timezone-formatted `HH:MM` strings, and the oracles for
every external effect. -/
structure RunConfig where
  supabaseUrl : Option String
  supabaseServiceKey : Option String
  nowStamp : Int
  anchorNowTime : String
  sweepNowTime : String
  sweepEndTime : String
  anchorOracle : AnchorOracle
  sweepFutureError : Bool
  sweepRetryError : Bool
  auth : String → Option AuthUser
  statOracle : String → StatOracle
  http : String → HttpResponse

/-- The query's order-by on the `time` column (`.order('time', ascending)`). -/
def sortByTime (l : List Medication) : List Medication :=
  l.mergeSort (fun a b => strLeB a.time b.time)

/-! ## Anchor Detector (`findAnchorMedications`, lines 374-503) -/

/-- Condition 1, first call: `.eq('time', nowTime).eq('is_taken', false)
.eq('retry_count', 0)` (lines 402-408). -/
def firstCallPred (nowTime : String) (m : Medication) : Bool :=
  m.time == nowTime && m.is_taken == false && m.retry_count == 0

/-- Condition 2, retry call: `.eq('is_taken', false)
.not('last_called_at', 'is', null).lt('last_called_at', cooldownISO)
.lt('retry_count', MAX_RETRY_COUNT)` (lines 426-433). -/
def anchorRetryPred (cooldownStamp : Int) (m : Medication) : Bool :=
  m.is_taken == false &&
  (match m.last_called_at with
   | none => false
   | some t => decide (t < cooldownStamp)) &&
  decide (m.retry_count < MAX_RETRY_COUNT)

/-- JS `Set` insertion: append if absent, preserving insertion order. -/
def insertUnique (l : List String) (x : String) : List String :=
  if l.contains x then l else l ++ [x]

/-- Lines 488-493: collect the distinct non-empty `user_id`s. -/
def collectUserIds (meds : List Medication) : List String :=
  meds.foldl (fun acc m => if m.user_id != "" then insertUnique acc m.user_id else acc) []

/-- `findAnchorMedications`: `none` models the `return null` taken on either
query error; otherwise the distinct anchor user ids plus the raw count. -/
def findAnchorMedications (cfg : RunConfig) (store : List Medication) :
    Option (List String × Nat) :=
  if cfg.anchorOracle.newMedsError then none
  else
    let newMeds := sortByTime (store.filter (firstCallPred cfg.anchorNowTime))
    if cfg.anchorOracle.retryMedsError then none
    else
      let cooldownStamp := cfg.nowStamp - SNOOZE_COOLDOWN_MINUTES * minuteMs
      let retryMeds := sortByTime (store.filter (anchorRetryPred cooldownStamp))
      let allAnchorMeds := newMeds ++ retryMeds
      if allAnchorMeds.isEmpty then some ([], 0)
      else some (collectUserIds allAnchorMeds, allAnchorMeds.length)

/-! ## Sweep Collector (`sweepUserMedications`, lines 514-688) -/

/-- Query 1, non-crossing branch (lines 574-581): range predicate
`.eq('is_taken', false).lt('retry_count', MAX).gte('time', nowTime)
.lte('time', windowEndTime)`. -/
def sweepFutureRange (nowTime windowEndTime : String) (m : Medication) : Bool :=
  m.is_taken == false && decide (m.retry_count < MAX_RETRY_COUNT) &&
  strLeB nowTime m.time && strLeB m.time windowEndTime

/-- Query 1, midnight-crossing branch (lines 558-564): disjunctive predicate
`.or('time.gte.nowTime,time.lte.windowEndTime')`. -/
def sweepFutureDisjunctive (nowTime windowEndTime : String) (m : Medication) : Bool :=
  m.is_taken == false && decide (m.retry_count < MAX_RETRY_COUNT) &&
  (strLeB nowTime m.time || strLeB m.time windowEndTime)

/-- Query 1 with the `crossesMidnight = windowEndTime < nowTime` branch
(lines 551-588); a query error leaves `futureMeds` as `[]`. -/
def sweepFutureMeds (queryError : Bool) (nowTime windowEndTime : String)
    (store : List Medication) : List Medication :=
  if strLtB windowEndTime nowTime then
    if queryError then [] else sortByTime (store.filter (sweepFutureDisjunctive nowTime windowEndTime))
  else
    if queryError then [] else sortByTime (store.filter (sweepFutureRange nowTime windowEndTime))

/-- Query 2, overdue retries (lines 603-611). -/
def sweepRetryPred (cooldownStamp : Int) (nowTime : String) (m : Medication) : Bool :=
  m.is_taken == false &&
  (match m.last_called_at with
   | none => false
   | some t => decide (t < cooldownStamp)) &&
  strLtB m.time nowTime && decide (m.retry_count < MAX_RETRY_COUNT)

/-- Lines 624-641: combine and deduplicate via the `seenIds` set, future meds
first. Written as one fold over the concatenation, equal to the source's two
consecutive loops. -/
def dedupById (meds : List Medication) : List Medication :=
  (meds.foldl
    (fun acc m => if acc.1.contains m.id then acc else (acc.1 ++ [m.id], acc.2 ++ [m]))
    (([], []) : List String × List Medication)).2

/-- `userBatches.get(userId).push(item)` on the insertion-ordered map. -/
def addToBatch : List (String × List MedicationItem) → String → MedicationItem →
    List (String × List MedicationItem)
  | [], u, it => [(u, [it])]
  | (v, items) :: rest, u, it =>
    if v == u then (v, items ++ [it]) :: rest
    else (v, items) :: addToBatch rest u it

/-- Lines 651-678: keep only medications of anchor users, group them by
`user_id` into the batches map, and collect the included user ids. -/
def groupSweep (anchorUserIds : List String) (meds : List Medication) :
    List (String × List MedicationItem) × List String :=
  meds.foldl
    (fun acc m =>
      if m.user_id == "" then acc
      else if anchorUserIds.contains m.user_id then
        (addToBatch acc.1 m.user_id ⟨m.id, m.name, ""⟩, insertUnique acc.2 m.user_id)
      else acc)
    ([], [])

/-- The combined deduplicated sweep list (`allSweepMeds`): queries 1 and 2 of
`sweepUserMedications`, whose `sweepStart` argument is `anchorStart` (one
`ANCHOR_WINDOW_MINUTES` before now) and from which it derives its cooldown
threshold. -/
def sweepAllMeds (cfg : RunConfig) (store : List Medication) : List Medication :=
  let sweepStartStamp := cfg.nowStamp - ANCHOR_WINDOW_MINUTES * minuteMs
  let cooldownStamp := sweepStartStamp - SNOOZE_COOLDOWN_MINUTES * minuteMs
  let futureMeds := sweepFutureMeds cfg.sweepFutureError cfg.sweepNowTime cfg.sweepEndTime store
  let retryMeds :=
    if cfg.sweepRetryError then []
    else sortByTime (store.filter (sweepRetryPred cooldownStamp cfg.sweepNowTime))
  dedupById (futureMeds ++ retryMeds)

/-- `sweepUserMedications`: the combined sweep list, grouped per anchor
user. -/
def sweepUserMedications (cfg : RunConfig) (store : List Medication)
    (anchorUserIds : List String) : List (String × List MedicationItem) × List String :=
  groupSweep anchorUserIds (sweepAllMeds cfg store)

/-! ## Retry Accountant (`updateMedicationStats`, lines 892-993) -/

/-- One successful individual UPDATE (lines 937-943): every row whose `id`
equals the fetched medication's `id` gets `last_called_at = now` and
`retry_count = fetched retry_count + 1`. -/
def applyStamp (now : Int) (c : Medication) (store : List Medication) : List Medication :=
  store.map (fun m =>
    if m.id == c.id then { m with last_called_at := some now, retry_count := c.retry_count + 1 }
    else m)

/-- `updateMedicationStats`, returning the boolean the source returns together
with the store it leaves behind. The per-id updates are issued from the one
fetched snapshot (`currentMeds`), each increment using the snapshot's
`retry_count`; `true` is returned only if every individual update succeeded. -/
def updateMedicationStats (o : StatOracle) (now : Int) (store : List Medication)
    (medicationIds : List String) : Bool × List Medication :=
  if medicationIds.isEmpty then (true, store)
  else if o.fetchError then (false, store)
  else
    let currentMeds := store.filter (fun m => medicationIds.contains m.id)
    if currentMeds.isEmpty then (false, store)
    else
      let newStore := currentMeds.foldl
        (fun st c => if o.updateFailures.contains c.id then st else applyStamp now c st) store
      (currentMeds.all (fun c => !(o.updateFailures.contains c.id)), newStore)

/-! ## Phone normalization (`sanitizePhoneNumber`, lines 998-1012) -/

/-- JavaScript `String.prototype.trim`, at character-list level. -/
def jsTrim (s : String) : String :=
  ⟨((s.data.dropWhile Char.isWhitespace).reverse.dropWhile Char.isWhitespace).reverse⟩

def sanitizePhoneNumber (phone : String) : String :=
  let sanitized := jsTrim phone
  let sanitized := if jsStartsWith sanitized "03" then "+92" ++ sanitized.drop 1 else sanitized
  if jsStartsWith sanitized "+" then sanitized else "+" ++ sanitized

/-! ## Call Provider invocation (`triggerMakeCall`, lines 1018-1049)

URL and auth-header assembly are I/O plumbing; the function's result is
determined by the HTTP response, which the oracle supplies. -/

def triggerMakeCall (resp : HttpResponse) : CallResult :=
  if !resp.ok then
    { success := false, callSid := none
      error := some (resp.dataError.getD ("HTTP " ++ toString resp.status)) }
  else { success := true, callSid := resp.dataCallSid, error := none }

/-! ## Identity resolution (profile loop, lines 193-223) -/

/-- The STEP 3 loop: for each user id, a failed lookup or an absent phone
number is skipped (`continue`), otherwise the profile is stored with the
sanitized phone. -/
def buildUserProfiles (auth : String → Option AuthUser) (userIds : List String) :
    List (String × UserProfile) :=
  userIds.foldl
    (fun acc userId =>
      match auth userId with
      | none => acc
      | some user =>
        match user.phone with
        | none => acc
        | some p =>
          acc ++ [(userId, { id := userId, phone := sanitizePhoneNumber p, name := user.name })])
    []

/-- `userProfiles.get(userId)`. -/
def lookupProfile (profiles : List (String × UserProfile)) (userId : String) :
    Option UserProfile :=
  (profiles.find? (fun p => p.1 == userId)).map (fun p => p.2)

/-! ## Batch Dispatcher (per-user closure, lines 240-323) -/

/-- Per-user dispatch result: the `details` entry the closure returns,
instrumented with whether `updateMedicationStats` was called and with what
result, whether `triggerMakeCall` was invoked, and the store left behind. -/
structure DispatchResult where
  detail : DispatchDetail
  accountantCalled : Bool
  commitOk : Bool
  callInvoked : Bool
  store : List Medication

def circuitBreakerMsg : String :=
  "Circuit breaker: DB update failed, call aborted to prevent duplicate billing"

/-- The medication ids the dispatcher hands to the accountant:
`medications.map(m => m.id).filter(id => id)` (line 267). -/
def batchMedicationIds (medications : List MedicationItem) : List String :=
  (medications.map (fun m => m.id)).filter (fun i => i != "")

/-- The per-user closure of STEP 4: skip without any effect when no profile
was resolved; otherwise commit stats first, abort with an `error` outcome if
the commit failed (circuit breaker), and only on commit success invoke the
call provider. -/
def dispatchUser (cfg : RunConfig) (profile : Option UserProfile) (userId : String)
    (medications : List MedicationItem) (store : List Medication) : DispatchResult :=
  match profile with
  | none =>
    { detail := { userId := userId, medicationCount := medications.length,
                  status := .skipped, callSid := none, error := some "No phone number available" }
      accountantCalled := false, commitOk := false, callInvoked := false, store := store }
  | some _ =>
    let medicationIds := batchMedicationIds medications
    let upd := updateMedicationStats (cfg.statOracle userId) cfg.nowStamp store medicationIds
    if !upd.1 then
      { detail := { userId := userId, medicationCount := medications.length,
                    status := .error, callSid := none, error := some circuitBreakerMsg }
        accountantCalled := true, commitOk := false, callInvoked := false, store := upd.2 }
    else
      let callResult := triggerMakeCall (cfg.http userId)
      if callResult.success then
        { detail := { userId := userId, medicationCount := medications.length,
                      status := .triggered, callSid := callResult.callSid, error := none }
          accountantCalled := true, commitOk := true, callInvoked := true, store := upd.2 }
      else
        { detail := { userId := userId, medicationCount := medications.length,
                      status := .error, callSid := none, error := callResult.error }
          accountantCalled := true, commitOk := true, callInvoked := true, store := upd.2 }

/-- One step of the dispatch fan-out: dispatch the user batch against the
current store, recording the settled detail. -/
def dispatchStep (cfg : RunConfig) (profiles : List (String × UserProfile))
    (acc : List DispatchDetail × List Medication) (b : String × List MedicationItem) :
    List DispatchDetail × List Medication :=
  let r := dispatchUser cfg (lookupProfile profiles b.1) b.1 b.2 acc.2
  (acc.1 ++ [r.detail], r.store)

/-- The `Promise.allSettled` fan-out over the user batches, folded in batch
order (see the header note on determinization). -/
def runDispatches (cfg : RunConfig) (profiles : List (String × UserProfile))
    (batches : List (String × List MedicationItem)) (store : List Medication) :
    List DispatchDetail × List Medication :=
  batches.foldl (dispatchStep cfg profiles) ([], store)

/-! ## Run report aggregation (lines 229-354) -/

/-- Template literal of line 338. In JavaScript an absent `error` field
renders as the string "undefined". -/
def errorLine (d : DispatchDetail) : String :=
  "User " ++ d.userId ++ ": " ++ d.error.getD "undefined"

/-- The result-processing loop of lines 329-345, from a given accumulator. -/
def aggLoop (settled : List DispatchDetail) (r : ScheduleResult) : ScheduleResult :=
  settled.foldl
    (fun r d =>
      let r := { r with details := r.details ++ [d] }
      match d.status with
      | .triggered =>
        { r with batches_triggered := r.batches_triggered + 1,
                 total_meds := r.total_meds + d.medicationCount }
      | .error => { r with errors := r.errors ++ [errorLine d] }
      | .skipped => r)
    r

/-- Lines 229-354: process the settled dispatch outcomes, then downgrade
`success` only when there were errors (partial success keeps `true`).
With the inner try/catch every promise fulfills, so the rejected branch of
line 340 is unreachable and not modelled. -/
def aggregateResults (settled : List DispatchDetail) : ScheduleResult :=
  let r := aggLoop settled
    { success := true, batches_triggered := 0, total_meds := 0, errors := [], details := [] }
  if r.errors.length > 0 then { r with success := decide (r.batches_triggered > 0) } else r

/-! ## Scheduler Run Controller (`processScheduledMedications`, lines 131-355) -/

def emptyScheduleResult : ScheduleResult :=
  { success := true, batches_triggered := 0, total_meds := 0, errors := [], details := [] }

/-- `processScheduledMedications`, with the store threaded through. The only
thrown error is the missing-credentials check of lines 135-137; every other
path returns a `ScheduleResult`. -/
def processScheduledMedications (cfg : RunConfig) (store : List Medication) :
    Except String (ScheduleResult × List Medication) :=
  match cfg.supabaseUrl, cfg.supabaseServiceKey with
  | some _, some _ =>
    match findAnchorMedications cfg store with
    | none => .ok (emptyScheduleResult, store)
    | some anchorResult =>
      if anchorResult.1.isEmpty then .ok (emptyScheduleResult, store)
      else
        let sweep := sweepUserMedications cfg store anchorResult.1
        if sweep.1.isEmpty then .ok (emptyScheduleResult, store)
        else
          let profiles := buildUserProfiles cfg.auth sweep.2
          let run := runDispatches cfg profiles sweep.1 store
          .ok (aggregateResults run.1, run.2)
  | _, _ => .error "Missing Supabase credentials"

/-- The medication store the run leaves behind (unchanged when the run
throws). -/
def runFinalStore (cfg : RunConfig) (store : List Medication) : List Medication :=
  match processScheduledMedications cfg store with
  | .ok r => r.2
  | .error _ => store

/-! ## Spoken list (`make-call/index.ts`, `createSpokenList`, lines 73-81) -/

def createSpokenList (items : List String) : String :=
  if items.length == 0 then "your medications"
  else if items.length == 1 then items.getD 0 ""
  else if items.length == 2 then items.getD 0 "" ++ " and " ++ items.getD 1 ""
  else
    let lastItem := items.getD (items.length - 1) ""
    let otherItems := items.dropLast
    String.intercalate ", " otherItems ++ ", and " ++ lastItem

/-- Modelled from the spec (the list-join contract of section 6 and the
separator property of section 8): after the first name, every further name is
preceded by exactly one separator, so `n` names get exactly `n - 1`
separators; the separator is " and " for two names, and otherwise ", " except
before the last name, which gets ", and " (Oxford comma). -/
def spokenTail : List String → String
  | [] => ""
  | [a] => ", and " ++ a
  | a :: rest => ", " ++ a ++ spokenTail rest

/-- Modelled from the spec: the natural-language join rule itself
(one item, two items, three or more items). -/
def spokenListSpec : List String → String
  | [] => ""
  | [a] => a
  | [a, b] => a ++ " and " ++ b
  | a :: rest => a ++ spokenTail rest

/-! ## Example rows used by concrete counterexamples and witnesses -/

/-- A pending medication scheduled at 00:10, for the midnight-crossing sweep
scenario. -/
def med0010 : Medication :=
  { id := "m1", name := "NightMed", dosage := "1 pill", time := "00:10", user_id := "u1",
    is_taken := false, last_called_at := none, retry_count := 0 }

/-- A pending medication whose last call was exactly `SNOOZE_COOLDOWN` before
the reference instant `10000000`. -/
def medBoundary : Medication :=
  { id := "b1", name := "Aspirin", dosage := "1 pill", time := "08:00", user_id := "u1",
    is_taken := false, last_called_at := some (10000000 - 15 * 60 * 1000), retry_count := 1 }

/-- A store row with id "a", used for the partial-fetch scenario. -/
def medRowA : Medication :=
  { id := "a", name := "Aspirin", dosage := "1 pill", time := "08:00", user_id := "u1",
    is_taken := false, last_called_at := none, retry_count := 0 }

/-! ## Claim C4 (corrected) -/

/-- Claim C4 counterexample: a medication with `is_taken = false`,
`retry_count = 1`, and `last_called_at` exactly `SNOOZE_COOLDOWN` before
`now = 10000000` does satisfy `now - lastCalledAt ≥ SNOOZE_COOLDOWN`, yet the
Anchor Detector's retry predicate (`lt('last_called_at', cooldownISO)`, a
strict comparison) rejects it, so it is not retry-eligible and the retry
query over a store holding only this row selects nothing. -/
theorem cooldown_boundary_counterexample :
    medBoundary.is_taken = false ∧ medBoundary.retry_count = 1 ∧
    medBoundary.last_called_at = some (10000000 - SNOOZE_COOLDOWN_MINUTES * minuteMs) ∧
    10000000 - (10000000 - SNOOZE_COOLDOWN_MINUTES * minuteMs) ≥ SNOOZE_COOLDOWN_MINUTES * minuteMs ∧
    anchorRetryPred (10000000 - SNOOZE_COOLDOWN_MINUTES * minuteMs) medBoundary = false ∧
    [medBoundary].filter (anchorRetryPred (10000000 - SNOOZE_COOLDOWN_MINUTES * minuteMs)) = [] := by
  decide

/-- Claim C4 amended: the cooldown boundary is exclusive. A pending medication
with `retry_count < MAX_RETRY_COUNT` and a non-null `lastCalledAt` is
retry-eligible in the Anchor Detector iff `now - lastCalledAt` is strictly
greater than `SNOOZE_COOLDOWN`; in particular at exactly `SNOOZE_COOLDOWN`
(and a fortiori one second short of it) it is not eligible. -/
theorem cooldown_retry_eligible_iff_strict (now t : Int) (m : Medication)
    (h1 : m.is_taken = false) (h2 : m.retry_count < MAX_RETRY_COUNT)
    (h3 : m.last_called_at = some t) :
    anchorRetryPred (now - SNOOZE_COOLDOWN_MINUTES * minuteMs) m = true ↔
      now - t > SNOOZE_COOLDOWN_MINUTES * minuteMs := by
  simp [anchorRetryPred, h1, h2, h3]
  omega

/-- Claim C4 witness: the amended eligibility criterion evaluated where the
cooldown has strictly expired (16 minutes elapsed). -/
theorem cooldown_retry_eligible_iff_strict_witness :
    ({ medBoundary with last_called_at := some (10000000 - 16 * 60 * 1000) } : Medication).is_taken = false ∧
    (anchorRetryPred (10000000 - SNOOZE_COOLDOWN_MINUTES * minuteMs)
        { medBoundary with last_called_at := some (10000000 - 16 * 60 * 1000) } = true ↔
      (10000000 : Int) - (10000000 - 16 * 60 * 1000) > SNOOZE_COOLDOWN_MINUTES * minuteMs) :=
  ⟨by decide,
   cooldown_retry_eligible_iff_strict 10000000 (10000000 - 16 * 60 * 1000) _
     (by decide) (by decide) (by decide)⟩

/-! ## Claim C5 (confirmed) -/

/-- Claim C5: whenever the sweep window crosses midnight (`windowEnd < nowTime`
lexically), the Sweep Collector's future-meds query selects exactly the store
rows satisfying the disjunctive predicate `time ≥ nowTime OR time ≤ windowEnd`;
concretely, with now = 23:50 and window end = 00:20 the window crosses
midnight, the pending medication at 00:10 is selected, and the naive
conjunctive range predicate would have excluded it. -/
theorem sweep_midnight_crossover :
    (∀ (nowTime windowEndTime : String) (store : List Medication) (m : Medication),
        strLtB windowEndTime nowTime = true →
        (m ∈ sweepFutureMeds false nowTime windowEndTime store ↔
          m ∈ store ∧ sweepFutureDisjunctive nowTime windowEndTime m = true)) ∧
    strLtB "00:20" "23:50" = true ∧
    med0010 ∈ sweepFutureMeds false "23:50" "00:20" [med0010] ∧
    sweepFutureRange "23:50" "00:20" med0010 = false := by
  refine ⟨?_, by decide, ?_, by decide⟩
  · intro nowTime windowEndTime store m h
    simp [sweepFutureMeds, h, sortByTime, List.mem_mergeSort, List.mem_filter]
  · have h : strLtB "00:20" "23:50" = true := by decide
    simp only [sweepFutureMeds, h, if_true, Bool.false_eq_true, if_false, sortByTime,
      List.mem_mergeSort, List.mem_filter]
    decide

/-- Claim C5 witness: the universally quantified part of the theorem applied
to the concrete midnight-crossing scenario. -/
theorem sweep_midnight_crossover_witness :
    strLtB "00:20" "23:50" = true ∧
    (med0010 ∈ sweepFutureMeds false "23:50" "00:20" [med0010] ↔
      med0010 ∈ [med0010] ∧ sweepFutureDisjunctive "23:50" "00:20" med0010 = true) :=
  ⟨by decide, sweep_midnight_crossover.1 "23:50" "00:20" [med0010] med0010 (by decide)⟩

/-! ## Claim C9 (corrected) -/

/-- Claim C9 counterexample: the phone number "0421234567" is in national
format with a leading "0", but `sanitizePhoneNumber` only substitutes the
"+92" country prefix for numbers starting with "03"; this number just gets a
"+" prepended, so its leading "0" is not replaced by the country code. -/
theorem sanitize_leading_zero_counterexample :
    jsStartsWith (jsTrim "0421234567") "0" = true ∧
    sanitizePhoneNumber "0421234567" = "+0421234567" ∧
    sanitizePhoneNumber "0421234567" ≠ "+92" ++ (jsTrim "0421234567").drop 1 := by
  decide

/-- Helper: a string starting with the character "0" does not start with
"+". -/
theorem jsStartsWith_zero_not_plus (s : String) (h : jsStartsWith s "0" = true) :
    jsStartsWith s "+" = false := by
  unfold jsStartsWith at h ⊢
  rw [show ("0" : String).data = ['0'] from rfl] at h
  rw [show ("+" : String).data = ['+'] from rfl]
  cases hd : s.data with
  | nil =>
    rw [hd] at h
    simp [List.isPrefixOf] at h
  | cons c rest =>
    rw [hd] at h
    simp only [List.isPrefixOf, List.isPrefixOf_nil_left, Bool.and_true] at h ⊢
    have hc : ('0' : Char) = c := by simpa using h
    rw [← hc]
    decide

/-- Claim C9 amended: exactly the trimmed numbers starting with "03" have the
leading "0" replaced by the fixed country prefix "+92" (the rest of the
number kept); every other number is passed through unchanged except that "+"
is prepended when absent — in particular a national-format number with a
leading "0" that is not an "03" number keeps its "0" and merely gains "+" —
and the output always begins with "+". -/
theorem sanitize_phone_amended (phone : String) :
    (jsStartsWith (jsTrim phone) "03" = true →
      sanitizePhoneNumber phone = "+92" ++ (jsTrim phone).drop 1) ∧
    (jsStartsWith (jsTrim phone) "03" = false →
      jsStartsWith (jsTrim phone) "+" = false →
      sanitizePhoneNumber phone = "+" ++ jsTrim phone) ∧
    (jsStartsWith (jsTrim phone) "03" = false →
      jsStartsWith (jsTrim phone) "+" = true →
      sanitizePhoneNumber phone = jsTrim phone) ∧
    (jsStartsWith (jsTrim phone) "0" = true →
      jsStartsWith (jsTrim phone) "03" = false →
      sanitizePhoneNumber phone = "+" ++ jsTrim phone) ∧
    jsStartsWith (sanitizePhoneNumber phone) "+" = true := by
  have hplus92 : ∀ s : String, jsStartsWith ("+92" ++ s) "+" = true := by
    intro s
    simp [jsStartsWith, List.isPrefixOf]
  have hplus1 : ∀ s : String, jsStartsWith ("+" ++ s) "+" = true := by
    intro s
    simp [jsStartsWith, List.isPrefixOf]
  cases h03 : jsStartsWith (jsTrim phone) "03" with
  | true =>
    have hres : sanitizePhoneNumber phone = "+92" ++ (jsTrim phone).drop 1 := by
      unfold sanitizePhoneNumber
      simp [h03, hplus92]
    refine ⟨fun _ => hres, ?_, ?_, ?_, by rw [hres]; exact hplus92 _⟩
    · intro hc
      simp [h03] at hc
    · intro hc
      simp [h03] at hc
    · intro _ hc
      simp [h03] at hc
  | false =>
    cases hp : jsStartsWith (jsTrim phone) "+" with
    | true =>
      have hres : sanitizePhoneNumber phone = jsTrim phone := by
        unfold sanitizePhoneNumber
        simp [h03, hp]
      refine ⟨?_, ?_, fun _ _ => hres, ?_, by rw [hres]; exact hp⟩
      · intro hc
        simp [h03] at hc
      · intro _ hc
        simp [hp] at hc
      · intro h0 _
        have := jsStartsWith_zero_not_plus _ h0
        rw [hp] at this
        exact Bool.noConfusion this
    | false =>
      have hres : sanitizePhoneNumber phone = "+" ++ jsTrim phone := by
        unfold sanitizePhoneNumber
        simp [h03, hp, hplus1]
      refine ⟨?_, fun _ _ => hres, ?_, fun _ _ => hres, by rw [hres]; exact hplus1 _⟩
      · intro hc
        simp [h03] at hc
      · intro _ hc
        simp [hp] at hc

/-- Claim C9 witness: the amended normalization evaluated on a concrete "03"
mobile number (prefix substituted) and on a concrete leading-"0" landline
number that is not an "03" number (the "0" kept, "+" merely prepended). -/
theorem sanitize_phone_amended_witness :
    sanitizePhoneNumber "03001234567" = "+92" ++ (jsTrim "03001234567").drop 1 ∧
    sanitizePhoneNumber "0421234567" = "+" ++ jsTrim "0421234567" ∧
    jsStartsWith (sanitizePhoneNumber "0421234567") "+" = true :=
  ⟨(sanitize_phone_amended "03001234567").1 (by decide),
   (sanitize_phone_amended "0421234567").2.2.2.1 (by decide) (by decide),
   (sanitize_phone_amended "0421234567").2.2.2.2⟩

/-! ## Claim C2 (corrected) -/

/-- Claim C2 counterexample: the accountant is asked to stamp ids "a" and
"b", the store only holds id "a", every issued update succeeds, and the whole
batch still reports success — a missing requested id does not force failure
when at least one requested id is found. -/
theorem updateStats_missing_id_counterexample :
    ("b" ∈ (["a", "b"] : List String)) ∧ (∀ m ∈ [medRowA], m.id ≠ "b") ∧
    (updateMedicationStats ⟨false, []⟩ 5 [medRowA] ["a", "b"]).1 = true := by
  decide

/-- Claim C2 amended: for a non-empty id list, the commit reports success iff
the fetch succeeded, at least one requested id is present in the store, and
every individual update over the rows actually found succeeded; a batch whose
requested ids are only partially present proceeds with the found subset, and
failure is forced only when the fetch fails, no id is found, or some found
row's update fails. -/
theorem updateStats_success_iff (o : StatOracle) (now : Int)
    (store : List Medication) (ids : List String) (h : ids ≠ []) :
    (updateMedicationStats o now store ids).1 = true ↔
      o.fetchError = false ∧
      (∃ m ∈ store, m.id ∈ ids) ∧
      ∀ c ∈ store, c.id ∈ ids → c.id ∉ o.updateFailures := by
  have hne : ids.isEmpty = false := by
    cases ids with
    | nil => simp at h
    | cons a l => rfl
  cases hf : o.fetchError with
  | true => simp [updateMedicationStats, hne, hf]
  | false =>
    cases hc : (store.filter (fun m => ids.contains m.id)).isEmpty with
    | true =>
      have hnil : store.filter (fun m => ids.contains m.id) = [] := List.isEmpty_iff.mp hc
      have hnone : ∀ m ∈ store, m.id ∉ ids := by
        intro m hm hin
        have hmem : m ∈ store.filter (fun m => ids.contains m.id) :=
          List.mem_filter.mpr ⟨hm, by simpa using hin⟩
        rw [hnil] at hmem
        exact absurd hmem (List.not_mem_nil m)
      simp only [updateMedicationStats, hne, hf, hc, Bool.false_eq_true, if_false, if_true]
      constructor
      · intro hfalse
        exact absurd hfalse (by simp)
      · rintro ⟨-, ⟨m, hm, hmid⟩, -⟩
        exact absurd hmid (hnone m hm)
    | false =>
      have hnnil : store.filter (fun m => ids.contains m.id) ≠ [] := by
        simpa [List.isEmpty_iff] using hc
      obtain ⟨w, hw⟩ := List.exists_mem_of_ne_nil _ hnnil
      have hw' := List.mem_filter.mp hw
      have hwid : w.id ∈ ids := by simpa using hw'.2
      simp only [updateMedicationStats, hne, hf, hc, Bool.false_eq_true, if_false,
        List.all_eq_true, List.mem_filter, Bool.not_eq_true', and_imp]
      constructor
      · intro hall
        refine ⟨by simp [hf], ⟨w, hw'.1, hwid⟩, ?_⟩
        intro c hcs hcid hcfail
        have := hall c hcs (by simpa using hcid)
        simp [hcfail] at this
      · rintro ⟨-, -, hall⟩ c hcs hcid
        have : c.id ∉ o.updateFailures := hall c hcs (by simpa using hcid)
        simpa using this

/-- Claim C2 witness: the amended success criterion evaluated on the
concrete partially-present batch. -/
theorem updateStats_success_iff_witness :
    ((["a", "b"] : List String) ≠ []) ∧
    ((updateMedicationStats ⟨false, []⟩ 5 [medRowA] ["a", "b"]).1 = true ↔
      (StatOracle.mk false []).fetchError = false ∧
      (∃ m ∈ [medRowA], m.id ∈ (["a", "b"] : List String)) ∧
      ∀ c ∈ [medRowA], c.id ∈ (["a", "b"] : List String) →
        c.id ∉ (StatOracle.mk false []).updateFailures) :=
  ⟨by decide, updateStats_success_iff ⟨false, []⟩ 5 [medRowA] ["a", "b"] (by decide)⟩

/-! ## Claim C6 (corrected) -/

/-- An `error` outcome used by the report-format counterexample. -/
def errDetail : DispatchDetail :=
  { userId := "u1", medicationCount := 1, status := .error, callSid := none, error := some "boom" }

/-- Claim C6 counterexample: for a single `error` outcome with user "u1" and
reason "boom", the report's errors entry is "User u1: boom" — the code
prefixes "User " — not the claimed bare format "u1: boom". -/
theorem report_error_prefix_counterexample :
    errDetail.status = DispatchStatus.error ∧ errDetail.userId = "u1" ∧
    errDetail.error = some "boom" ∧
    (aggregateResults [errDetail]).errors = ["User u1: boom"] ∧
    (aggregateResults [errDetail]).errors ≠ ["u1: boom"] := by
  decide

/-- Helper: closed form of the report-processing loop from any accumulator. -/
theorem aggLoop_spec (ds : List DispatchDetail) (r : ScheduleResult) :
    aggLoop ds r =
      { success := r.success
        batches_triggered :=
          r.batches_triggered + (ds.filter (fun d => d.status == .triggered)).length
        total_meds :=
          r.total_meds + ((ds.filter (fun d => d.status == .triggered)).map
            (fun d => d.medicationCount)).sum
        errors := r.errors ++ (ds.filter (fun d => d.status == .error)).map errorLine
        details := r.details ++ ds } := by
  induction ds generalizing r with
  | nil => simp [aggLoop]
  | cons d ds ih =>
    cases hs : d.status with
    | triggered =>
      simp only [aggLoop, List.foldl_cons, hs] at ih ⊢
      rw [ih]
      simp [hs, Nat.add_assoc, Nat.add_comm, Nat.add_left_comm]
    | skipped =>
      simp only [aggLoop, List.foldl_cons, hs] at ih ⊢
      rw [ih]
      simp [hs]
    | error =>
      simp only [aggLoop, List.foldl_cons, hs] at ih ⊢
      rw [ih]
      simp [hs, List.append_assoc]

/-- Claim C6 amended: for every list of per-user dispatch outcomes,
`batches_triggered` is the number of `triggered` outcomes, `total_meds` is
the sum of batch sizes over only the `triggered` outcomes, `errors` holds one
"User userId: reason" entry per `error` outcome (skipped outcomes
contribute none), and `success` is true unless there were zero triggered
outcomes and at least one error. -/
theorem report_aggregation (ds : List DispatchDetail) :
    (aggregateResults ds).batches_triggered =
      (ds.filter (fun d => d.status == .triggered)).length ∧
    (aggregateResults ds).total_meds =
      ((ds.filter (fun d => d.status == .triggered)).map (fun d => d.medicationCount)).sum ∧
    (aggregateResults ds).errors =
      (ds.filter (fun d => d.status == .error)).map errorLine ∧
    (aggregateResults ds).success =
      ((ds.filter (fun d => d.status == .error)).isEmpty ||
        decide (0 < (ds.filter (fun d => d.status == .triggered)).length)) := by
  unfold aggregateResults
  rw [aggLoop_spec]
  cases he : ((ds.filter (fun d => d.status == .error)).map errorLine).length with
  | zero =>
    have hlen : (ds.filter (fun d => d.status == .error)).length = 0 := by
      simpa only [List.length_map] using he
    have : (ds.filter (fun d => d.status == .error)) = [] := List.length_eq_zero.mp hlen
    simp [this]
  | succ n =>
    have hne : (ds.filter (fun d => d.status == .error)) ≠ [] := by
      intro hnil
      rw [hnil] at he
      simp at he
    simp [he, List.isEmpty_iff, hne]

/-! ## Claim C1 (confirmed) -/

/-- Claim C1: for every per-user dispatch, the Call Provider
(`triggerMakeCall`) is invoked only if the Retry Accountant's commit
(`updateMedicationStats`) returned success for that batch in the same
dispatch; and whenever the commit returns failure the per-user outcome is
`error` and the Call Provider is never invoked. -/
theorem circuit_breaker_commit_gates_call (cfg : RunConfig) (profile : Option UserProfile)
    (userId : String) (medications : List MedicationItem) (store : List Medication) :
    ((dispatchUser cfg profile userId medications store).callInvoked = true →
      (updateMedicationStats (cfg.statOracle userId) cfg.nowStamp store
        (batchMedicationIds medications)).1 = true) ∧
    (∀ p, profile = some p →
      (updateMedicationStats (cfg.statOracle userId) cfg.nowStamp store
        (batchMedicationIds medications)).1 = false →
      (dispatchUser cfg profile userId medications store).detail.status = DispatchStatus.error ∧
      (dispatchUser cfg profile userId medications store).callInvoked = false) := by
  cases profile with
  | none => simp [dispatchUser]
  | some p =>
    cases hu : (updateMedicationStats (cfg.statOracle userId) cfg.nowStamp store
        (batchMedicationIds medications)).1 with
    | false => simp [dispatchUser, hu]
    | true =>
      cases hcall : (triggerMakeCall (cfg.http userId)).success with
      | false => simp [dispatchUser, hu, hcall]
      | true => simp [dispatchUser, hu, hcall]

/-- Claim C1 witness: a dispatch whose commit fails (fetch error oracle) has
outcome `error` and never invokes the Call Provider. -/
theorem circuit_breaker_commit_gates_call_witness :
    (dispatchUser
        { supabaseUrl := some "u", supabaseServiceKey := some "k", nowStamp := 100,
          anchorNowTime := "08:00", sweepNowTime := "07:59", sweepEndTime := "08:29",
          anchorOracle := ⟨false, false⟩, sweepFutureError := false, sweepRetryError := false,
          auth := fun _ => none, statOracle := fun _ => ⟨true, []⟩,
          http := fun _ => ⟨true, 200, none, some "CA1"⟩ }
        (some { id := "u1", phone := "+923001234567", name := "Sarim" }) "u1"
        [{ id := "a", name := "Aspirin", logId := "" }] [medRowA]).detail.status =
      DispatchStatus.error ∧
    (dispatchUser
        { supabaseUrl := some "u", supabaseServiceKey := some "k", nowStamp := 100,
          anchorNowTime := "08:00", sweepNowTime := "07:59", sweepEndTime := "08:29",
          anchorOracle := ⟨false, false⟩, sweepFutureError := false, sweepRetryError := false,
          auth := fun _ => none, statOracle := fun _ => ⟨true, []⟩,
          http := fun _ => ⟨true, 200, none, some "CA1"⟩ }
        (some { id := "u1", phone := "+923001234567", name := "Sarim" }) "u1"
        [{ id := "a", name := "Aspirin", logId := "" }] [medRowA]).callInvoked = false :=
  (circuit_breaker_commit_gates_call _ _ "u1" _ [medRowA]).2
    { id := "u1", phone := "+923001234567", name := "Sarim" } rfl (by decide)

/-! ## Claim C7 (confirmed) -/

/-- Helper: the profile loop never creates an entry for a user whose lookup
failed or who has no phone number. -/
theorem buildUserProfiles_no_entry (auth : String → Option AuthUser) (userId : String)
    (h : auth userId = none ∨ ∀ a, auth userId = some a → a.phone = none) :
    ∀ userIds, lookupProfile (buildUserProfiles auth userIds) userId = none := by
  have key : ∀ (userIds : List String) (acc : List (String × UserProfile)),
      (∀ e ∈ acc, e.1 ≠ userId) →
      ∀ e ∈ userIds.foldl
        (fun acc uid =>
          match auth uid with
          | none => acc
          | some user =>
            match user.phone with
            | none => acc
            | some p =>
              acc ++ [(uid, { id := uid, phone := sanitizePhoneNumber p, name := user.name })])
        acc, e.1 ≠ userId := by
    intro userIds
    induction userIds with
    | nil => intro acc hacc e he; exact hacc e he
    | cons uid rest ih =>
      intro acc hacc e he
      simp only [List.foldl_cons] at he
      refine ih _ ?_ e he
      cases ha : auth uid with
      | none => simpa [ha] using hacc
      | some user =>
        cases hp : user.phone with
        | none => simpa [ha, hp] using hacc
        | some p =>
          simp only [ha, hp]
          intro e' he'
          rcases List.mem_append.mp he' with h1 | h2
          · exact hacc e' h1
          · have : e' = (uid, { id := uid, phone := sanitizePhoneNumber p, name := user.name }) := by
              simpa using h2
            subst this
            intro hEq
            have huid : uid = userId := hEq
            rcases h with hnone | hsome
            · rw [huid] at ha; rw [ha] at hnone; exact Option.noConfusion hnone
            · rw [huid] at ha
              have := hsome user ha
              rw [this] at hp; exact Option.noConfusion hp
  intro userIds
  unfold lookupProfile
  rw [Option.map_eq_none']
  rw [List.find?_eq_none]
  intro e he
  have := key userIds [] (by simp) e (by simpa [buildUserProfiles] using he)
  simpa using this

/-- Claim C7: if identity resolution for a user fails or yields no phone
number, no profile is built for that user, its dispatch outcome is `skipped`,
the Retry Accountant is never called, the Call Provider is never invoked, and
the medication store is left completely unchanged. -/
theorem identity_failure_no_effects (cfg : RunConfig) (userIds : List String)
    (userId : String) (medications : List MedicationItem) (store : List Medication)
    (h : cfg.auth userId = none ∨ ∀ a, cfg.auth userId = some a → a.phone = none) :
    lookupProfile (buildUserProfiles cfg.auth userIds) userId = none ∧
    (dispatchUser cfg (lookupProfile (buildUserProfiles cfg.auth userIds) userId)
        userId medications store).detail.status = DispatchStatus.skipped ∧
    (dispatchUser cfg (lookupProfile (buildUserProfiles cfg.auth userIds) userId)
        userId medications store).accountantCalled = false ∧
    (dispatchUser cfg (lookupProfile (buildUserProfiles cfg.auth userIds) userId)
        userId medications store).callInvoked = false ∧
    (dispatchUser cfg (lookupProfile (buildUserProfiles cfg.auth userIds) userId)
        userId medications store).store = store := by
  have hnone := buildUserProfiles_no_entry cfg.auth userId h userIds
  rw [hnone]
  exact ⟨rfl, rfl, rfl, rfl, rfl⟩

/-- Claim C7 witness: the frame property at a concrete user whose auth lookup
fails. -/
theorem identity_failure_no_effects_witness :
    lookupProfile
        (buildUserProfiles
          (RunConfig.auth
            { supabaseUrl := some "u", supabaseServiceKey := some "k", nowStamp := 100,
              anchorNowTime := "08:00", sweepNowTime := "07:59", sweepEndTime := "08:29",
              anchorOracle := ⟨false, false⟩, sweepFutureError := false,
              sweepRetryError := false, auth := fun _ => none,
              statOracle := fun _ => ⟨false, []⟩,
              http := fun _ => ⟨true, 200, none, some "CA1"⟩ }) ["u1"]) "u1" = none ∧
    (dispatchUser
        { supabaseUrl := some "u", supabaseServiceKey := some "k", nowStamp := 100,
          anchorNowTime := "08:00", sweepNowTime := "07:59", sweepEndTime := "08:29",
          anchorOracle := ⟨false, false⟩, sweepFutureError := false,
          sweepRetryError := false, auth := fun _ => none,
          statOracle := fun _ => ⟨false, []⟩,
          http := fun _ => ⟨true, 200, none, some "CA1"⟩ }
        (lookupProfile
          (buildUserProfiles
            (RunConfig.auth
              { supabaseUrl := some "u", supabaseServiceKey := some "k", nowStamp := 100,
                anchorNowTime := "08:00", sweepNowTime := "07:59", sweepEndTime := "08:29",
                anchorOracle := ⟨false, false⟩, sweepFutureError := false,
                sweepRetryError := false, auth := fun _ => none,
                statOracle := fun _ => ⟨false, []⟩,
                http := fun _ => ⟨true, 200, none, some "CA1"⟩ }) ["u1"]) "u1") "u1"
        [{ id := "a", name := "Aspirin", logId := "" }] [medRowA]).store = [medRowA] := by
  have := identity_failure_no_effects
    { supabaseUrl := some "u", supabaseServiceKey := some "k", nowStamp := 100,
      anchorNowTime := "08:00", sweepNowTime := "07:59", sweepEndTime := "08:29",
      anchorOracle := ⟨false, false⟩, sweepFutureError := false,
      sweepRetryError := false, auth := fun _ => none,
      statOracle := fun _ => ⟨false, []⟩,
      http := fun _ => ⟨true, 200, none, some "CA1"⟩ } ["u1"] "u1"
    [{ id := "a", name := "Aspirin", logId := "" }] [medRowA] (Or.inl rfl)
  exact ⟨this.1, this.2.2.2.2⟩

/-! ## Claim C10 (confirmed) -/

/-- Claim C10: if either anchor query returns a store error,
`findAnchorMedications` returns null; the run then returns a report with
`success = true`, zero batches triggered and an empty error list (the store
failure is not surfaced), and the only condition on which the run throws is a
missing credential. -/
theorem anchor_error_silent_success (cfg : RunConfig) (store : List Medication)
    (h : cfg.anchorOracle.newMedsError = true ∨ cfg.anchorOracle.retryMedsError = true) :
    findAnchorMedications cfg store = none ∧
    (∀ u k, cfg.supabaseUrl = some u → cfg.supabaseServiceKey = some k →
      processScheduledMedications cfg store = .ok (emptyScheduleResult, store)) ∧
    emptyScheduleResult.success = true ∧
    emptyScheduleResult.batches_triggered = 0 ∧
    emptyScheduleResult.errors = [] ∧
    (∀ e, processScheduledMedications cfg store = .error e →
      (cfg.supabaseUrl = none ∨ cfg.supabaseServiceKey = none) ∧
      e = "Missing Supabase credentials") := by
  have hanchor : findAnchorMedications cfg store = none := by
    unfold findAnchorMedications
    rcases h with h1 | h2
    · simp [h1]
    · cases hn : cfg.anchorOracle.newMedsError with
      | true => simp [hn]
      | false => simp [hn, h2]
  refine ⟨hanchor, ?_, rfl, rfl, rfl, ?_⟩
  · intro u k hu hk
    unfold processScheduledMedications
    rw [hu, hk, hanchor]
  · intro e he
    unfold processScheduledMedications at he
    cases hu : cfg.supabaseUrl with
    | none =>
      rw [hu] at he
      cases hk : cfg.supabaseServiceKey with
      | none => rw [hk] at he; exact ⟨Or.inl rfl, (Except.error.inj he).symm⟩
      | some k => rw [hk] at he; exact ⟨Or.inl rfl, (Except.error.inj he).symm⟩
    | some u =>
      rw [hu] at he
      cases hk : cfg.supabaseServiceKey with
      | none => rw [hk] at he; exact ⟨Or.inr rfl, (Except.error.inj he).symm⟩
      | some k =>
        rw [hk, hanchor] at he
        exact Except.noConfusion he

/-- Claim C10 witness: a run with credentials present and a failing first
anchor query returns the silent empty success report. -/
theorem anchor_error_silent_success_witness :
    processScheduledMedications
        { supabaseUrl := some "u", supabaseServiceKey := some "k", nowStamp := 100,
          anchorNowTime := "08:00", sweepNowTime := "07:59", sweepEndTime := "08:29",
          anchorOracle := ⟨true, false⟩, sweepFutureError := false,
          sweepRetryError := false, auth := fun _ => none,
          statOracle := fun _ => ⟨false, []⟩,
          http := fun _ => ⟨true, 200, none, some "CA1"⟩ } [medRowA] =
      .ok (emptyScheduleResult, [medRowA]) :=
  (anchor_error_silent_success
    { supabaseUrl := some "u", supabaseServiceKey := some "k", nowStamp := 100,
      anchorNowTime := "08:00", sweepNowTime := "07:59", sweepEndTime := "08:29",
      anchorOracle := ⟨true, false⟩, sweepFutureError := false,
      sweepRetryError := false, auth := fun _ => none,
      statOracle := fun _ => ⟨false, []⟩,
      http := fun _ => ⟨true, 200, none, some "CA1"⟩ } [medRowA]
    (Or.inl rfl)).2.1 "u" "k" rfl rfl

/-! ## Claim C8 (confirmed) -/

/-- Helper: running the intercalate accumulator over the middle names and
then appending the Oxford ", and last" tail produces exactly the spec's
one-separator-per-remaining-name join. -/
theorem intercalate_go_spokenTail (mid : List String) (acc last : String) :
    String.intercalate.go acc ", " mid ++ ", and " ++ last = acc ++ spokenTail (mid ++ [last]) := by
  induction mid generalizing acc with
  | nil =>
    show acc ++ ", and " ++ last = acc ++ spokenTail [last]
    simp [spokenTail, String.append_assoc]
  | cons b mid ih =>
    show String.intercalate.go (acc ++ ", " ++ b) ", " mid ++ ", and " ++ last =
      acc ++ spokenTail (b :: (mid ++ [last]))
    rw [ih]
    cases mid with
    | nil =>
      show acc ++ ", " ++ b ++ spokenTail [last] = acc ++ spokenTail [b, last]
      simp [spokenTail, String.append_assoc]
    | cons c mid' =>
      show acc ++ ", " ++ b ++ spokenTail ((c :: mid') ++ [last]) =
        acc ++ spokenTail (b :: c :: (mid' ++ [last]))
      simp [spokenTail, String.append_assoc]

/-- Claim C8: for every non-empty list of medication names, `createSpokenList`
produces exactly the spec's deterministic join — the single name for one
item, "A and B" for two, and the Oxford-comma form for three or more, in
which every name after the first is preceded by exactly one separator
(so n names get n-1 separators) and "and" occurs only before the last name. -/
theorem spoken_list_matches_spec (items : List String) (h : items ≠ []) :
    createSpokenList items = spokenListSpec items := by
  match items with
  | [a] => simp [createSpokenList, spokenListSpec]
  | [a, b] => simp [createSpokenList, spokenListSpec]
  | a :: b :: c :: rest =>
    have h0 : ((a :: b :: c :: rest).length == 0) = false := by
      simp [List.length_cons]
    have h1 : ((a :: b :: c :: rest).length == 1) = false := by
      simp [List.length_cons]
    have h2 : ((a :: b :: c :: rest).length == 2) = false := by
      simp [List.length_cons]
    unfold createSpokenList
    rw [h0, h1, h2]
    simp only [Bool.false_eq_true, if_false]
    have hlast : (a :: b :: c :: rest).getD ((a :: b :: c :: rest).length - 1) "" =
        (b :: c :: rest).getLast (by simp) := by
      have hlen : (a :: b :: c :: rest).length - 1 = (b :: c :: rest).length - 1 + 1 := by
        simp [List.length_cons]
      rw [hlen]
      show (b :: c :: rest).getD ((b :: c :: rest).length - 1) "" = (b :: c :: rest).getLast (by simp)
      rw [List.getLast_eq_getElem]
      exact List.getD_eq_getElem (b :: c :: rest) "" (by simp)
    rw [hlast]
    have hdrop : (a :: b :: c :: rest).dropLast = a :: (b :: c :: rest).dropLast := by
      simp [List.dropLast]
    rw [hdrop]
    show String.intercalate.go a ", " (b :: c :: rest).dropLast ++ ", and " ++
        (b :: c :: rest).getLast (by simp) = spokenListSpec (a :: b :: c :: rest)
    rw [intercalate_go_spokenTail]
    rw [List.dropLast_append_getLast (by simp : (b :: c :: rest) ≠ [])]
    rfl

/-- Claim C8 witness: the join evaluated on a concrete three-name list. -/
theorem spoken_list_matches_spec_witness :
    ((["Aspirin", "Insulin", "Panadol"] : List String) ≠ []) ∧
    createSpokenList ["Aspirin", "Insulin", "Panadol"] =
      spokenListSpec ["Aspirin", "Insulin", "Panadol"] :=
  ⟨by decide, spoken_list_matches_spec ["Aspirin", "Insulin", "Panadol"] (by decide)⟩

/-! ## Claim C3 (lemmas): rows written by the Retry Accountant -/

/-- The id lists of the user batches, in batch order. -/
def batchIdList : List (String × List MedicationItem) → List String
  | [] => []
  | b :: rest => b.2.map (fun it => it.id) ++ batchIdList rest

/-- Helper: a row of `applyStamp`'s output is an untouched row of the input
or carries the stamped medication's id with its snapshot count plus one. -/
theorem mem_applyStamp {now : Int} {c m' : Medication} {st : List Medication}
    (h : m' ∈ applyStamp now c st) :
    m' ∈ st ∨ (m'.id = c.id ∧ m'.retry_count = c.retry_count + 1) := by
  unfold applyStamp at h
  rcases List.mem_map.mp h with ⟨m, hm, heq⟩
  by_cases hid : (m.id == c.id) = true
  · right
    rw [if_pos hid] at heq
    rw [← heq]
    exact ⟨by simpa using hid, rfl⟩
  · left
    rw [if_neg hid] at heq
    rw [← heq]
    exact hm

/-- Helper: rows after folding the individual stamp updates over the fetched
snapshot. -/
theorem mem_stampFold (o : StatOracle) (now : Int) :
    ∀ (C st : List Medication) (m' : Medication),
      m' ∈ C.foldl
        (fun st c => if o.updateFailures.contains c.id then st else applyStamp now c st) st →
      m' ∈ st ∨ ∃ c ∈ C, m'.id = c.id ∧ m'.retry_count = c.retry_count + 1 := by
  intro C
  induction C with
  | nil => intro st m' h; exact Or.inl h
  | cons c C ih =>
    intro st m' h
    simp only [List.foldl_cons] at h
    rcases ih _ m' h with h1 | ⟨c', hc', hprop⟩
    · by_cases hf : o.updateFailures.contains c.id = true
      · rw [if_pos hf] at h1
        exact Or.inl h1
      · rw [if_neg hf] at h1
        rcases mem_applyStamp h1 with h2 | h3
        · exact Or.inl h2
        · exact Or.inr ⟨c, List.mem_cons_self c C, h3⟩
    · exact Or.inr ⟨c', List.mem_cons_of_mem c hc', hprop⟩

/-- Helper: every row of the accountant's output store is an untouched input
row, or the increment-by-one stamp of an input row whose id was requested. -/
theorem mem_updateStats_store (o : StatOracle) (now : Int) (st : List Medication)
    (ids : List String) (m' : Medication)
    (h : m' ∈ (updateMedicationStats o now st ids).2) :
    m' ∈ st ∨ ∃ c ∈ st, c.id ∈ ids ∧ m'.id = c.id ∧ m'.retry_count = c.retry_count + 1 := by
  cases hemp : ids.isEmpty with
  | true =>
    rw [updateMedicationStats, hemp] at h
    simp at h
    exact Or.inl h
  | false =>
    cases hf : o.fetchError with
    | true =>
      rw [updateMedicationStats, hemp, hf] at h
      simp at h
      exact Or.inl h
    | false =>
      rw [updateMedicationStats, hemp, hf] at h
      simp only [Bool.false_eq_true, if_false] at h
      cases hc : (st.filter (fun m => ids.contains m.id)).isEmpty with
      | true =>
        rw [hc] at h
        simp at h
        exact Or.inl h
      | false =>
        rw [hc] at h
        simp only [Bool.false_eq_true, if_false] at h
        rcases mem_stampFold o now _ st m' h with h1 | ⟨c, hcmem, hprop⟩
        · exact Or.inl h1
        · have hcf := List.mem_filter.mp hcmem
          exact Or.inr ⟨c, hcf.1, by simpa using hcf.2, hprop⟩

/-- Helper: the accountant keeps every retry count at most
`MAX_RETRY_COUNT` provided that the requested ids all belong to rows below
the limit, and it leaves rows of a disjoint pending id set untouched below
the limit. -/
theorem updateStats_preserves_bound (o : StatOracle) (now : Int) (st : List Medication)
    (ids J : List String)
    (hle : ∀ m ∈ st, m.retry_count ≤ MAX_RETRY_COUNT)
    (hsel : ∀ m ∈ st, m.id ∈ ids → m.retry_count < MAX_RETRY_COUNT)
    (hJ : ∀ m ∈ st, m.id ∈ J → m.retry_count < MAX_RETRY_COUNT)
    (hdisj : ∀ i ∈ ids, i ∉ J) :
    ∀ m' ∈ (updateMedicationStats o now st ids).2,
      m'.retry_count ≤ MAX_RETRY_COUNT ∧ (m'.id ∈ J → m'.retry_count < MAX_RETRY_COUNT) := by
  intro m' hm'
  rcases mem_updateStats_store o now st ids m' hm' with h1 | ⟨c, hcst, hcid, hid, hrc⟩
  · exact ⟨hle m' h1, hJ m' h1⟩
  · have hclt := hsel c hcst hcid
    refine ⟨by rw [hrc]; omega, ?_⟩
    intro hinJ
    rw [hid] at hinJ
    exact absurd hinJ (hdisj c.id hcid)

/-- Helper: a dispatch leaves the store unchanged (skip path) or leaves
exactly the accountant's output store. -/
theorem dispatchUser_store (cfg : RunConfig) (profile : Option UserProfile)
    (userId : String) (medications : List MedicationItem) (st : List Medication) :
    (dispatchUser cfg profile userId medications st).store = st ∨
    (dispatchUser cfg profile userId medications st).store =
      (updateMedicationStats (cfg.statOracle userId) cfg.nowStamp st
        (batchMedicationIds medications)).2 := by
  cases profile with
  | none => exact Or.inl rfl
  | some p =>
    refine Or.inr ?_
    cases hu : (updateMedicationStats (cfg.statOracle userId) cfg.nowStamp st
        (batchMedicationIds medications)).1 with
    | false => simp [dispatchUser, hu]
    | true =>
      cases hcall : (triggerMakeCall (cfg.http userId)).success with
      | false => simp [dispatchUser, hu, hcall]
      | true => simp [dispatchUser, hu, hcall]

/-- Helper: ids the dispatcher passes to the accountant are batch item ids. -/
theorem batchMedicationIds_subset (medications : List MedicationItem) :
    ∀ i ∈ batchMedicationIds medications, i ∈ medications.map (fun it => it.id) := by
  intro i hi
  exact (List.mem_filter.mp hi).1

/-- Helper: the dispatch fold keeps every retry count at most
`MAX_RETRY_COUNT`, given that all still-pending batch ids point at rows
strictly below the limit and are mutually distinct. -/
theorem dispatchFold_preserves_bound (cfg : RunConfig) (profiles : List (String × UserProfile)) :
    ∀ (batches : List (String × List MedicationItem))
      (acc : List DispatchDetail × List Medication),
      (∀ m ∈ acc.2, m.retry_count ≤ MAX_RETRY_COUNT) →
      (∀ m ∈ acc.2, m.id ∈ batchIdList batches → m.retry_count < MAX_RETRY_COUNT) →
      (batchIdList batches).Nodup →
      ∀ m' ∈ (batches.foldl (dispatchStep cfg profiles) acc).2,
        m'.retry_count ≤ MAX_RETRY_COUNT := by
  intro batches
  induction batches with
  | nil => intro acc hle _ _ m' hm'; exact hle m' hm'
  | cons b rest ih =>
    intro acc hle hguard hnodup m' hm'
    simp only [List.foldl_cons] at hm'
    have hsplit := List.nodup_append.mp (show ((b.2.map (fun it => it.id)) ++ batchIdList rest).Nodup from hnodup)
    have hst := dispatchUser_store cfg (lookupProfile profiles b.1) b.1 b.2 acc.2
    have hinv : (∀ m ∈ (dispatchStep cfg profiles acc b).2, m.retry_count ≤ MAX_RETRY_COUNT) ∧
        (∀ m ∈ (dispatchStep cfg profiles acc b).2,
          m.id ∈ batchIdList rest → m.retry_count < MAX_RETRY_COUNT) := by
      have hstep : (dispatchStep cfg profiles acc b).2 =
          (dispatchUser cfg (lookupProfile profiles b.1) b.1 b.2 acc.2).store := rfl
      rcases hst with hsame | hupd
      · rw [hstep, hsame]
        refine ⟨hle, ?_⟩
        intro m hm hid
        exact hguard m hm (List.mem_append_right _ hid)
      · rw [hstep, hupd]
        have key := updateStats_preserves_bound (cfg.statOracle b.1) cfg.nowStamp acc.2
          (batchMedicationIds b.2) (batchIdList rest) hle
          (fun m hm hid => hguard m hm
            (List.mem_append_left _ (batchMedicationIds_subset b.2 m.id hid)))
          (fun m hm hid => hguard m hm (List.mem_append_right _ hid))
          (fun i hi => hsplit.2.2 (batchMedicationIds_subset b.2 i hi))
        exact ⟨fun m hm => (key m hm).1, fun m hm => (key m hm).2⟩
    exact ih (dispatchStep cfg profiles acc b) hinv.1 hinv.2 hsplit.2.1 m' hm'

/-! ## Claim C3 (lemmas): soundness of the sweep selection -/

/-- Helper: deduplication only keeps rows of its input. -/
theorem dedupById_subset : ∀ (l : List Medication), ∀ m ∈ dedupById l, m ∈ l := by
  have key : ∀ (l : List Medication) (acc : List String × List Medication) (m : Medication),
      m ∈ (l.foldl
        (fun acc m => if acc.1.contains m.id then acc else (acc.1 ++ [m.id], acc.2 ++ [m]))
        acc).2 → m ∈ acc.2 ∨ m ∈ l := by
    intro l
    induction l with
    | nil => intro acc m h; exact Or.inl h
    | cons x l ih =>
      intro acc m h
      simp only [List.foldl_cons] at h
      rcases ih _ m h with h1 | h2
      · by_cases hc : acc.1.contains x.id = true
        · rw [if_pos hc] at h1
          exact Or.inl h1
        · rw [if_neg hc] at h1
          rcases List.mem_append.mp h1 with h3 | h4
          · exact Or.inl h3
          · have hmx : m = x := by simpa using h4
            rw [hmx]
            exact Or.inr (List.mem_cons_self x l)
      · exact Or.inr (List.mem_cons_of_mem x h2)
  intro l m h
  rcases key l ([], []) m h with h1 | h2
  · simp at h1
  · exact h2

/-- Helper: deduplication produces pairwise distinct medication ids. -/
theorem dedupById_nodup (l : List Medication) : ((dedupById l).map (fun m => m.id)).Nodup := by
  have key : ∀ (l : List Medication) (acc : List String × List Medication),
      acc.1 = acc.2.map (fun m => m.id) → acc.1.Nodup →
      ((l.foldl
        (fun acc m => if acc.1.contains m.id then acc else (acc.1 ++ [m.id], acc.2 ++ [m]))
        acc).2.map (fun m => m.id)).Nodup := by
    intro l
    induction l with
    | nil =>
      intro acc heq hnd
      simpa [← heq] using hnd
    | cons x l ih =>
      intro acc heq hnd
      simp only [List.foldl_cons]
      by_cases hc : acc.1.contains x.id = true
      · rw [if_pos hc]
        exact ih acc heq hnd
      · rw [if_neg hc]
        refine ih _ (by simp [heq]) ?_
        have hx : x.id ∉ acc.1 := by simpa using hc
        simpa [List.nodup_append, hnd] using hx
  exact key l ([], []) rfl List.nodup_nil

/-- Helper: the sorted future-meds query only returns pending store rows
strictly below the retry limit. -/
theorem sweepFutureMeds_sound (queryError : Bool) (nowTime windowEndTime : String)
    (store : List Medication) :
    ∀ m ∈ sweepFutureMeds queryError nowTime windowEndTime store,
      m ∈ store ∧ m.retry_count < MAX_RETRY_COUNT := by
  intro m hm
  unfold sweepFutureMeds at hm
  by_cases hcross : strLtB windowEndTime nowTime = true
  · rw [if_pos hcross] at hm
    cases he : queryError with
    | true => rw [he] at hm; simp at hm
    | false =>
      rw [he] at hm
      simp only [Bool.false_eq_true, if_false, sortByTime, List.mem_mergeSort] at hm
      have hf := List.mem_filter.mp hm
      refine ⟨hf.1, ?_⟩
      have := hf.2
      unfold sweepFutureDisjunctive at this
      simp only [Bool.and_eq_true, decide_eq_true_eq] at this
      exact this.1.2
  · rw [if_neg hcross] at hm
    cases he : queryError with
    | true => rw [he] at hm; simp at hm
    | false =>
      rw [he] at hm
      simp only [Bool.false_eq_true, if_false, sortByTime, List.mem_mergeSort] at hm
      have hf := List.mem_filter.mp hm
      refine ⟨hf.1, ?_⟩
      have := hf.2
      unfold sweepFutureRange at this
      simp only [Bool.and_eq_true, decide_eq_true_eq] at this
      exact this.1.1.2

/-- Helper: the combined deduplicated sweep list only holds store rows
strictly below the retry limit, with pairwise distinct ids. -/
theorem sweepAllMeds_sound (cfg : RunConfig) (store : List Medication) :
    (∀ m ∈ sweepAllMeds cfg store, m ∈ store ∧ m.retry_count < MAX_RETRY_COUNT) ∧
    ((sweepAllMeds cfg store).map (fun m => m.id)).Nodup := by
  constructor
  · intro m hm
    have hm' := dedupById_subset _ m hm
    rcases List.mem_append.mp hm' with hfu | hre
    · exact sweepFutureMeds_sound cfg.sweepFutureError cfg.sweepNowTime cfg.sweepEndTime store m hfu
    · cases he : cfg.sweepRetryError with
      | true => rw [he] at hre; simp at hre
      | false =>
        rw [he] at hre
        simp only [Bool.false_eq_true, if_false, sortByTime, List.mem_mergeSort] at hre
        have hf := List.mem_filter.mp hre
        refine ⟨hf.1, ?_⟩
        have := hf.2
        unfold sweepRetryPred at this
        simp only [Bool.and_eq_true, decide_eq_true_eq] at this
        exact this.2
  · exact dedupById_nodup _

/-! ## Claim C3 (lemmas): grouping dispatches each sweep row at most once -/

/-- Helper: appending an item to its user's batch adds exactly its id to the
ids of the batches map. -/
theorem addToBatch_ids_perm (u : String) (it : MedicationItem) :
    ∀ bs : List (String × List MedicationItem),
      (batchIdList (addToBatch bs u it)).Perm (it.id :: batchIdList bs)
  | [] => by simp [addToBatch, batchIdList]
  | (v, items) :: rest => by
    simp only [addToBatch]
    by_cases hv : (v == u) = true
    · rw [if_pos hv]
      show ((items ++ [it]).map (fun it => it.id) ++ batchIdList rest).Perm
        (it.id :: (items.map (fun it => it.id) ++ batchIdList rest))
      rw [List.map_append, List.append_assoc]
      exact List.perm_middle
    · rw [if_neg hv]
      show (items.map (fun it => it.id) ++ batchIdList (addToBatch rest u it)).Perm
        (it.id :: (items.map (fun it => it.id) ++ batchIdList rest))
      have ih := addToBatch_ids_perm u it rest
      exact (List.Perm.append_left _ ih).trans List.perm_middle

/-- Helper: the ids of the grouped batches form a sub-permutation of the ids
of the grouped rows — each row is dispatched at most once. -/
theorem groupSweep_ids_subperm (anchorUserIds : List String) (meds : List Medication) :
    (batchIdList (groupSweep anchorUserIds meds).1).Subperm (meds.map (fun m => m.id)) := by
  have key : ∀ (meds : List Medication) (acc : List (String × List MedicationItem) × List String),
      (batchIdList (meds.foldl
        (fun acc m =>
          if m.user_id == "" then acc
          else if anchorUserIds.contains m.user_id then
            (addToBatch acc.1 m.user_id ⟨m.id, m.name, ""⟩, insertUnique acc.2 m.user_id)
          else acc)
        acc).1).Subperm (batchIdList acc.1 ++ meds.map (fun m => m.id)) := by
    intro meds
    induction meds with
    | nil => intro acc; simpa using List.Subperm.refl _
    | cons m meds ih =>
      intro acc
      simp only [List.foldl_cons, List.map_cons]
      have hweaken : (batchIdList acc.1 ++ meds.map (fun m => m.id)).Sublist
          (batchIdList acc.1 ++ (m.id :: meds.map (fun m => m.id))) :=
        List.Sublist.append_left (List.sublist_cons_self m.id _) _
      by_cases h1 : (m.user_id == "") = true
      · rw [if_pos h1]
        exact (ih acc).trans hweaken.subperm
      · rw [if_neg h1]
        by_cases h2 : anchorUserIds.contains m.user_id = true
        · rw [if_pos h2]
          refine (ih _).trans (List.Perm.subperm ?_)
          have hperm : (batchIdList (addToBatch acc.1 m.user_id ⟨m.id, m.name, ""⟩)).Perm
              (m.id :: batchIdList acc.1) :=
            addToBatch_ids_perm m.user_id ⟨m.id, m.name, ""⟩ acc.1
          have h3 := List.Perm.append_right (meds.map (fun m => m.id)) hperm
          exact h3.trans (List.perm_middle.symm)
        · rw [if_neg h2]
          exact (ih acc).trans hweaken.subperm
  have h := key meds ([], [])
  simpa [groupSweep, batchIdList] using h

/-- Helper: a sub-permutation of a duplicate-free list is duplicate-free. -/
theorem subperm_nodup {l₁ l₂ : List String} (h : l₁.Subperm l₂) (h₂ : l₂.Nodup) :
    l₁.Nodup := by
  obtain ⟨l, hperm, hsub⟩ := h
  exact hperm.nodup_iff.mp (hsub.nodup h₂)

/-- Helper: every run either leaves the store untouched or hands it to the
dispatch fold over the swept user batches. -/
theorem runFinalStore_char (cfg : RunConfig) (store : List Medication) :
    runFinalStore cfg store = store ∨
    ∃ anchorUserIds profiles,
      runFinalStore cfg store =
        ((sweepUserMedications cfg store anchorUserIds).1.foldl
          (dispatchStep cfg profiles) ([], store)).2 := by
  unfold runFinalStore processScheduledMedications
  cases cfg.supabaseUrl with
  | none => exact Or.inl rfl
  | some u =>
    cases cfg.supabaseServiceKey with
    | none => exact Or.inl rfl
    | some k =>
      cases ha : findAnchorMedications cfg store with
      | none => exact Or.inl (by simp)
      | some ar =>
        by_cases hemp : ar.1.isEmpty = true
        · exact Or.inl (by simp [hemp])
        · by_cases hsw : (sweepUserMedications cfg store ar.1).1.isEmpty = true
          · exact Or.inl (by simp [hemp, hsw])
          · refine Or.inr ⟨ar.1,
              buildUserProfiles cfg.auth (sweepUserMedications cfg store ar.1).2, ?_⟩
            simp [hemp, hsw, runDispatches]

/-! ## Claim C3 (confirmed) -/

/-- Claim C3: over a store with unique medication ids, if every medication
satisfies `retry_count ≤ MAX_RETRY_COUNT` before a scheduler run, the bound
still holds for every medication after the run: the sweep selections all
require `retry_count < MAX_RETRY_COUNT` (and the first-call anchor requires
`retry_count = 0`), and the accountant increments `retry_count` by exactly
one only for rows whose id was selected. -/
theorem scheduler_preserves_retry_bound (cfg : RunConfig) (store : List Medication)
    (hnodup : (store.map (fun m => m.id)).Nodup)
    (hle : ∀ m ∈ store, m.retry_count ≤ MAX_RETRY_COUNT) :
    ∀ m' ∈ runFinalStore cfg store, m'.retry_count ≤ MAX_RETRY_COUNT := by
  rcases runFinalStore_char cfg store with heq | ⟨anchorUserIds, profiles, heq⟩
  · rw [heq]; exact hle
  · rw [heq]
    have hsub : (batchIdList (sweepUserMedications cfg store anchorUserIds).1).Subperm
        ((sweepAllMeds cfg store).map (fun m => m.id)) :=
      groupSweep_ids_subperm anchorUserIds (sweepAllMeds cfg store)
    have hsound := (sweepAllMeds_sound cfg store).1
    have hnodupBatch : (batchIdList (sweepUserMedications cfg store anchorUserIds).1).Nodup :=
      subperm_nodup hsub (sweepAllMeds_sound cfg store).2
    have hguard : ∀ m ∈ store,
        m.id ∈ batchIdList (sweepUserMedications cfg store anchorUserIds).1 →
        m.retry_count < MAX_RETRY_COUNT := by
      intro m hm hid
      have hid' : m.id ∈ (sweepAllMeds cfg store).map (fun m => m.id) := hsub.subset hid
      rcases List.mem_map.mp hid' with ⟨s, hs, hsid⟩
      have hss := hsound s hs
      have hms : m = s := List.inj_on_of_nodup_map hnodup hm hss.1 hsid.symm
      rw [hms]
      exact hss.2
    exact dispatchFold_preserves_bound cfg profiles
      (sweepUserMedications cfg store anchorUserIds).1 ([], store) hle hguard hnodupBatch

/-- Claim C3 witness: the bound holds after a full concrete run that anchors,
sweeps, commits and triggers a call for one medication. -/
theorem scheduler_preserves_retry_bound_witness :
    (([medRowA].map (fun m => m.id)).Nodup ∧
      ∀ m ∈ [medRowA], m.retry_count ≤ MAX_RETRY_COUNT) ∧
    ∀ m' ∈ runFinalStore
        { supabaseUrl := some "u", supabaseServiceKey := some "k", nowStamp := 100000000,
          anchorNowTime := "08:00", sweepNowTime := "07:59", sweepEndTime := "08:29",
          anchorOracle := ⟨false, false⟩, sweepFutureError := false, sweepRetryError := false,
          auth := fun _ => some ⟨some "03001234567", "Sarim"⟩,
          statOracle := fun _ => ⟨false, []⟩,
          http := fun _ => ⟨true, 200, none, some "CA1"⟩ } [medRowA],
      m'.retry_count ≤ MAX_RETRY_COUNT :=
  ⟨⟨by decide, by decide⟩,
   scheduler_preserves_retry_bound
     { supabaseUrl := some "u", supabaseServiceKey := some "k", nowStamp := 100000000,
       anchorNowTime := "08:00", sweepNowTime := "07:59", sweepEndTime := "08:29",
       anchorOracle := ⟨false, false⟩, sweepFutureError := false, sweepRetryError := false,
       auth := fun _ => some ⟨some "03001234567", "Sarim"⟩,
       statOracle := fun _ => ⟨false, []⟩,
       http := fun _ => ⟨true, 200, none, some "CA1"⟩ } [medRowA] (by decide) (by decide)⟩

end MedReminder
